import Mathlib

/-!
Shallow embedding of the sso-service core (Go) and verification of its
specification claims.

Components embedded, each from its source file:
* `BHash`, `bcryptGenerateFromPassword`, `bcryptCompareHashAndPassword` —
  model of the external bcrypt contract used by the auth service
  (`golang.org/x/crypto/bcrypt`): a salted one-way hash where comparison
  succeeds exactly when the password is the one the hash was generated from.
* `User` — `internal/domain/models.User`.
* `StorageErr` — the sentinel errors of `internal/storage`.
* `UserDAO.*` — the mongo-backed user directory
  (`internal/storage/redis/redis.go`, mongo part): the collection is a list
  of documents, `InsertOne` appends, `FindOne`/`Find` scan in order,
  `ReplaceOne` replaces the first filter match, unique indexes on
  `_id`, `login`, `telegramLogin` make inserts fail with a duplicate-key
  error.
* `TokenStorage.*` — the redis token cache: entries carry an absolute
  expiry instant; an expired entry is indistinguishable from an absent one
  (`GET` misses it, `SETNX` overwrites it).
* `NewToken` — `internal/lib/jwt/jwt.go`: the signed token is modelled by
  its claims `uid`, `login`, `exp = now + ttl`; the signature and the
  serialized string are opaque and play no role in any claim.
* `Auth.*` — the auth service (`internal/services/auth`).
* `UnaryInterceptor`, `findSesion` — the admission middleware
  (`internal/app/grpc/middlewares.go`), parameterised over the storage
  handles it holds, as in the Go struct.
* `ServerAPI.*`, `validateRegister`, `validateAuth` — the RPC facade
  (`internal/grpc/auth/server.go`), parameterised over the auth call's
  outcome.

Nondeterministic inputs of the Go code (the random id source, the bcrypt
salt, the current time) are explicit parameters.
-/

deriving instance DecidableEq for Except

/-- Model of a bcrypt hash: the salt and the hashed password. In the real
library the bytes are opaque; only generation and comparison are used. -/
structure BHash where
  salt : Nat
  pw : String
deriving DecidableEq

/-- `bcrypt.GenerateFromPassword` (external library contract): produces a
salted hash of the password. -/
def bcryptGenerateFromPassword (salt : Nat) (password : String) : BHash :=
  ⟨salt, password⟩

/-- `bcrypt.CompareHashAndPassword` (external library contract): succeeds
(`true`) exactly when the hash was generated from this password. -/
def bcryptCompareHashAndPassword (hash : BHash) (password : String) : Bool :=
  hash.pw == password

/-- Rendering of the hash bytes as a string, as done by `string(user.PassHash)`
in the Go views. Injective, like the byte-to-string reinterpretation. -/
def BHash.render (h : BHash) : String :=
  toString h.salt ++ "$" ++ h.pw

/-- `internal/domain/models.User`: the persisted user document. -/
structure User where
  id : Int
  login : String
  passHash : BHash
  isAdmin : Bool
  telegramLogin : String
deriving DecidableEq

/-- The sentinel errors of `internal/storage` plus a constructor for any
other backing-store failure. -/
inductive StorageErr
  | userExists
  | tokenExists
  | userNotFound
  | tokenNotFound
  | other
deriving DecidableEq

namespace UserDAO

/-- `FindOne` on filter `{_id: userID}`: first document with that id. -/
def findByID (users : List User) (userID : Int) : Option User :=
  users.find? (fun u => u.id == userID)

/-- Whether inserting `u` violates one of the unique indexes
(`_id` primary key, `login`, `telegramLogin`). -/
def duplicateKey (users : List User) (u : User) : Bool :=
  users.any (fun v => v.id == u.id || v.login == u.login ||
    v.telegramLogin == u.telegramLogin)

/-- `UserDAO.SaveUser`: overwrites the caller-supplied id with
`int64(uuid.New().ID())` — the widening of a random unsigned 32-bit value
`rnd % 2^32` — then `InsertOne`s; a duplicate-key error becomes
`ErrUserExists`. -/
def SaveUser (users : List User) (rnd : Nat) (user : User) :
    Except StorageErr (List User) :=
  let user' := { user with id := ((rnd % 2 ^ 32 : Nat) : Int) }
  if duplicateKey users user' then .error .userExists
  else .ok (users ++ [user'])

/-- `ReplaceOne` on filter `{_id: userID}`: replaces the first document with
that id. -/
def replaceByID (users : List User) (userID : Int) (newUser : User) :
    List User :=
  match users with
  | [] => []
  | u :: rest =>
      if u.id == userID then newUser :: rest
      else u :: replaceByID rest userID newUser

/-- `UserDAO.ChangePassword`: fetch by id (`ErrUserNotFound` if absent),
overwrite the password hash, `ReplaceOne`. -/
def ChangePassword (users : List User) (userID : Int) (newHash : BHash) :
    Except StorageErr (List User) :=
  match findByID users userID with
  | none => .error .userNotFound
  | some u => .ok (replaceByID users userID { u with passHash := newHash })

/-- `UserDAO.MakeAdmin`: fetch by id (`ErrUserNotFound` if absent), set
`IsAdmin = true`, `ReplaceOne`. -/
def MakeAdmin (users : List User) (userID : Int) :
    Except StorageErr (List User) :=
  match findByID users userID with
  | none => .error .userNotFound
  | some u => .ok (replaceByID users userID { u with isAdmin := true })

/-- `UserDAO.User`: `FindOne` on filter `{login: login}`;
`ErrUserNotFound` if no document matches. -/
def UserByLogin (users : List User) (login : String) :
    Except StorageErr User :=
  match users.find? (fun u => u.login == login) with
  | none => .error .userNotFound
  | some u => .ok u

/-- `UserDAO.IsAdmin`: fetch by id, return the flag. -/
def IsAdmin (users : List User) (userID : Int) : Except StorageErr Bool :=
  match findByID users userID with
  | none => .error .userNotFound
  | some u => .ok u.isAdmin

/-- `UserDAO.GetUserByTelegram`: `Find` on filter
`{telegramLogin: telegramLogin}`. A `Find` with no matches yields an empty
cursor, not an error, so the result is the (possibly empty) list of
matches. -/
def GetUserByTelegram (users : List User) (telegramLogin : String) :
    Except StorageErr (List User) :=
  .ok (users.filter (fun u => u.telegramLogin == telegramLogin))

/-- `UserDAO.GetAllUsers`: `Find` with the empty filter. -/
def GetAllUsers (users : List User) : Except StorageErr (List User) :=
  .ok users

end UserDAO

/-- The signed token of `internal/lib/jwt`, modelled by its claims. -/
structure Token where
  uid : Int
  login : String
  exp : Nat
deriving DecidableEq

/-- `jwt.NewToken`: claims `uid = user.ID`, `login = user.Login`,
`exp = now + duration`, signed with the process secret (the signature is
opaque and not modelled). -/
def NewToken (user : User) (now duration : Nat) : Token :=
  ⟨user.id, user.login, now + duration⟩

/-- A redis token-cache entry: key `user:<userID>`, the stored token, and
the absolute expiry instant set at insertion. -/
structure TokenEntry where
  userID : Int
  token : Token
  expiresAt : Nat
deriving DecidableEq

namespace TokenStorage

/-- An entry is live at `now` when its expiry has not passed. Redis treats
an expired key exactly like an absent one. -/
def live (e : TokenEntry) (now : Nat) : Bool :=
  now < e.expiresAt

/-- The live entry for `user:<userID>` at `now`, if any. -/
def getLive (ts : List TokenEntry) (now : Nat) (userID : Int) :
    Option TokenEntry :=
  (ts.filter (fun e => live e now)).find? (fun e => e.userID == userID)

/-- `TokenStorage.JWT`: `GET user:<userID>`; `ErrTokenNotFound` when the key
is absent or expired. -/
def JWT (ts : List TokenEntry) (now : Nat) (userID : Int) :
    Except StorageErr Token :=
  match getLive ts now userID with
  | none => .error .tokenNotFound
  | some e => .ok e.token

/-- `TokenStorage.SaveJWT`: `SETNX user:<userID> token EX ttl`. If a live
entry exists the insert is refused with `ErrTokenExists`; otherwise the
entry is written with expiry `now + ttl` (any expired leftover for the key
is gone, as redis drops expired keys). -/
def SaveJWT (ts : List TokenEntry) (now : Nat) (token : Token)
    (userID : Int) (ttl : Nat) : Except StorageErr (List TokenEntry) :=
  match getLive ts now userID with
  | some _ => .error .tokenExists
  | none =>
      .ok (ts.filter (fun e => e.userID != userID) ++
        [⟨userID, token, now + ttl⟩])

/-- The cache contents after a `SaveJWT` call: the new state on success,
the untouched prior state on failure (`SETNX` writes nothing when the key
exists). -/
def SaveJWT_state (ts : List TokenEntry) (now : Nat) (token : Token)
    (userID : Int) (ttl : Nat) : List TokenEntry :=
  match SaveJWT ts now token userID ttl with
  | .ok ts' => ts'
  | .error _ => ts

/-- `TokenStorage.DeleteJWT`: `DEL user:<userID>`; succeeds regardless of
prior presence. -/
def DeleteJWT (ts : List TokenEntry) (userID : Int) :
    Except StorageErr (List TokenEntry) :=
  .ok (ts.filter (fun e => e.userID != userID))

end TokenStorage

/-- The combined backing state the auth service operates on: the mongo user
collection and the redis token cache. -/
structure St where
  users : List User
  tokens : List TokenEntry
deriving DecidableEq

/-- Errors at the auth-service boundary: its own sentinel errors
(`auth.ErrInvalidCredentials`, `auth.ErrUserExists`, `auth.ErrUserNotFound`)
and pass-through of wrapped storage errors. -/
inductive AuthErr
  | invalidCredentials
  | userExists
  | userNotFound
  | storage (e : StorageErr)
deriving DecidableEq

namespace Auth

/-- `Auth.RegisterUser`: hash the password with bcrypt (default cost, fresh
salt `salt`), build the user with `IsAdmin = false`, `UserDAO.SaveUser`
(which assigns the id from `rnd`); `storage.ErrUserExists` becomes
`auth.ErrUserExists`, other failures pass through. -/
def RegisterUser (st : St) (salt rnd : Nat)
    (login password telegramLogin : String) : Except AuthErr St :=
  let passHash := bcryptGenerateFromPassword salt password
  let user : User :=
    { id := 0, login := login, passHash := passHash, isAdmin := false,
      telegramLogin := telegramLogin }
  match UserDAO.SaveUser st.users rnd user with
  | .error .userExists => .error .userExists
  | .error e => .error (.storage e)
  | .ok users' => .ok { st with users := users' }

/-- `Auth.AuthorizeUser`: look the user up by login
(`storage.ErrUserNotFound` becomes `ErrInvalidCredentials`, other lookup
failures pass through); compare the password against the stored bcrypt hash
(mismatch is `ErrInvalidCredentials`); mint a token via `jwt.NewToken` and
`SaveJWT` it (any save failure — `ErrTokenExists` included — passes
through); return the token. -/
def AuthorizeUser (st : St) (now ttl : Nat) (login password : String) :
    Except AuthErr (Token × St) :=
  match UserDAO.UserByLogin st.users login with
  | .error .userNotFound => .error .invalidCredentials
  | .error e => .error (.storage e)
  | .ok user =>
      if bcryptCompareHashAndPassword user.passHash password then
        let token := NewToken user now ttl
        match TokenStorage.SaveJWT st.tokens now token user.id ttl with
        | .error e => .error (.storage e)
        | .ok tokens' => .ok (token, { st with tokens := tokens' })
      else .error .invalidCredentials

/-- `Auth.IsAdmin`: delegate to the directory; any failure passes
through. -/
def IsAdmin (st : St) (userID : Int) : Except AuthErr Bool :=
  match UserDAO.IsAdmin st.users userID with
  | .error e => .error (.storage e)
  | .ok b => .ok b

/-- `Auth.ChangePassword`: hash the new password (fresh salt `salt`) and
delegate; `storage.ErrUserNotFound` becomes `auth.ErrUserNotFound`. -/
def ChangePassword (st : St) (salt : Nat) (userID : Int)
    (newPassword : String) : Except AuthErr St :=
  let newHash := bcryptGenerateFromPassword salt newPassword
  match UserDAO.ChangePassword st.users userID newHash with
  | .error .userNotFound => .error .userNotFound
  | .error e => .error (.storage e)
  | .ok users' => .ok { st with users := users' }

/-- `Auth.MakeAdmin`: delegate; `storage.ErrUserNotFound` becomes
`auth.ErrUserNotFound`. -/
def MakeAdmin (st : St) (userID : Int) : Except AuthErr St :=
  match UserDAO.MakeAdmin st.users userID with
  | .error .userNotFound => .error .userNotFound
  | .error e => .error (.storage e)
  | .ok users' => .ok { st with users := users' }

/-- The gRPC user view (`ssov1.User`): a proto3 message, so a field left
out of a struct literal takes its zero value — the empty string for
`TelegramLogin`. -/
structure GrpcUser where
  userId : Int
  login : String
  password : String
  isAdmin : Bool
  telegramLogin : String
deriving DecidableEq

/-- `Auth.GetUserByTelegram`: fetch the matching records and map each to a
view carrying all five fields, `TelegramLogin` included;
`storage.ErrUserNotFound` becomes `ErrInvalidCredentials`. -/
def GetUserByTelegram (st : St) (telegramLogin : String) :
    Except AuthErr (List GrpcUser) :=
  match UserDAO.GetUserByTelegram st.users telegramLogin with
  | .error .userNotFound => .error .invalidCredentials
  | .error e => .error (.storage e)
  | .ok users =>
      .ok (users.map (fun u =>
        { userId := u.id, login := u.login, password := u.passHash.render,
          isAdmin := u.isAdmin, telegramLogin := u.telegramLogin }))

/-- `Auth.GetAllUsers`: fetch every record and map each to a view whose
struct literal omits `TelegramLogin`, leaving the proto3 zero value
`""`. -/
def GetAllUsers (st : St) : Except AuthErr (List GrpcUser) :=
  match UserDAO.GetAllUsers st.users with
  | .error e => .error (.storage e)
  | .ok users =>
      .ok (users.map (fun u =>
        { userId := u.id, login := u.login, password := u.passHash.render,
          isAdmin := u.isAdmin, telegramLogin := "" }))

/-- `Auth.GetJWT`: delegate to the cache; a `storage.ErrUserNotFound` would
become `auth.ErrUserNotFound` (the cache in fact raises
`ErrTokenNotFound`, which passes through). -/
def GetJWT (st : St) (now : Nat) (userID : Int) : Except AuthErr Token :=
  match TokenStorage.JWT st.tokens now userID with
  | .error .userNotFound => .error .userNotFound
  | .error e => .error (.storage e)
  | .ok t => .ok t

/-- `Auth.DeleteJWT`: delegate to the cache. -/
def DeleteJWT (st : St) (userID : Int) : Except AuthErr St :=
  match TokenStorage.DeleteJWT st.tokens userID with
  | .error .userNotFound => .error .userNotFound
  | .error e => .error (.storage e)
  | .ok tokens' => .ok { st with tokens := tokens' }

end Auth

/-- gRPC status codes that the middleware and facade emit. -/
inductive Code
  | unauthenticated
  | permissionDenied
  | internal
  | invalidArgument
deriving DecidableEq

/-- Outcome of the admission middleware for one RPC: either the wrapped
handler is invoked or the call is rejected with a status code. -/
inductive Decision
  | handled
  | reject (code : Code)
deriving DecidableEq

/-- The storage handles the middleware struct holds
(`AuthMiddleware.tokenStorage`, `AuthMiddleware.userStorage`), as the
functions the interceptor calls on them. -/
structure Handles where
  getUserByTelegram : String → Except StorageErr (List User)
  isAdmin : Int → Except StorageErr Bool
  getJWT : Int → Except StorageErr Token

/-- The `publicMethods` map of the interceptor. -/
def publicMethods (method : String) : Bool :=
  method == "/Auth/RegisterNewUser" || method == "/Auth/AuthorizeUser"

/-- `AuthMiddleware.findSesion`: the id of the first of the caller's user
records whose token-cache lookup succeeds, `-1` if none. -/
def findSesion (getJWT : Int → Except StorageErr Token)
    (users : List User) : Int :=
  match users with
  | [] => -1
  | u :: rest =>
      match getJWT u.id with
      | .ok _ => u.id
      | .error _ => findSesion getJWT rest

/-- `AuthMiddleware.UnaryInterceptor`. `md` is the incoming metadata's
value list for the `telegramLogin` key (`none` = no metadata at all,
`some []` = metadata without the key). Follows the Go control flow line by
line: missing metadata / missing header → `Unauthenticated`; caller lookup
error → handler only for `ErrUserNotFound` on the registration method,
otherwise `Unauthenticated`; then session selection, the public-method
gate, the admin check (an admin-lookup failure → `Internal`), and the
`ChangePassword` exception. -/
def UnaryInterceptor (h : Handles) (md : Option (List String))
    (method : String) : Decision :=
  match md with
  | none => .reject .unauthenticated
  | some values =>
      match values with
      | [] => .reject .unauthenticated
      | cid :: _ =>
          match h.getUserByTelegram cid with
          | .error e =>
              if e = StorageErr.userNotFound ∧
                  method = "/Auth/RegisterNewUser" then .handled
              else .reject .unauthenticated
          | .ok users =>
              let userID := findSesion h.getJWT users
              if userID == -1 then
                if publicMethods method then .handled
                else .reject .unauthenticated
              else if publicMethods method then .reject .permissionDenied
              else
                match h.isAdmin userID with
                | .error _ => .reject .internal
                | .ok true => .handled
                | .ok false =>
                    if method == "/Auth/ChangePassword" then .handled
                    else .reject .permissionDenied

/-- The classification C3 states for a call whose caller lookup succeeded,
written from the claim's words: session none → public admitted, everything
else `Unauthenticated`; session present → public `PermissionDenied`,
`ChangePassword` admitted regardless of role, any remaining method admitted
exactly when the session user is an admin, all else `PermissionDenied`. -/
def claimedClassification (h : Handles) (users : List User)
    (method : String) : Decision :=
  let sid := findSesion h.getJWT users
  if sid == -1 then
    if publicMethods method then .handled else .reject .unauthenticated
  else if publicMethods method then .reject .permissionDenied
  else if method == "/Auth/ChangePassword" then .handled
  else
    match h.isAdmin sid with
    | .ok true => .handled
    | _ => .reject .permissionDenied

/-- Outcome of an RPC facade method: a response or a status code. -/
inductive RpcResult (α : Type)
  | ok (a : α)
  | err (code : Code)
deriving DecidableEq

/-- `ssov1.RegisterRequest`. -/
structure RegisterRequest where
  login : String
  password : String
  telegramLogin : String
deriving DecidableEq

/-- `ssov1.AutohrizeRequest` (sic). -/
structure AuthorizeRequest where
  login : String
  password : String
deriving DecidableEq

/-- `validateRegister`: rejects an empty `login` or `password` with
`InvalidArgument`. (The `telegramLogin` field is not inspected.) -/
def validateRegister (req : RegisterRequest) : Option Code :=
  if req.login = "" then some .invalidArgument
  else if req.password = "" then some .invalidArgument
  else none

/-- `validateAuth`: rejects an empty `login` or `password` with
`InvalidArgument`. -/
def validateAuth (req : AuthorizeRequest) : Option Code :=
  if req.login = "" then some .invalidArgument
  else if req.password = "" then some .invalidArgument
  else none

namespace ServerAPI

/-- `ServerAPI.RegisterNewUser`: validate, then invoke the auth service
(`authResult` is that call's outcome); any auth failure collapses to
`Internal`. When validation fails the auth service is never invoked, so
the result is the same for every `authResult`. -/
def RegisterNewUser (req : RegisterRequest)
    (authResult : Except AuthErr Unit) : RpcResult Unit :=
  match validateRegister req with
  | some c => .err c
  | none =>
      match authResult with
      | .error _ => .err .internal
      | .ok _ => .ok ()

/-- `ServerAPI.AuthorizeUser`: validate, then invoke the auth service; any
auth failure collapses to `Internal` with a generic message. -/
def AuthorizeUser (req : AuthorizeRequest)
    (authResult : Except AuthErr Token) : RpcResult Token :=
  match validateAuth req with
  | some c => .err c
  | none =>
      match authResult with
      | .error _ => .err .internal
      | .ok t => .ok t

end ServerAPI

/-- A state-mutating core operation, with its nondeterministic inputs
(salt, random id, clock) made explicit. Read-only operations are omitted:
they do not change `St`. -/
inductive Op
  | register (salt rnd : Nat) (login password telegramLogin : String)
  | authorize (now ttl : Nat) (login password : String)
  | changePassword (salt : Nat) (userID : Int) (newPassword : String)
  | makeAdmin (userID : Int)
  | deleteToken (userID : Int)

/-- One core operation applied to the state; a failing operation leaves the
state unchanged (every mutator either completes its single write or
performs none). -/
def step (st : St) (op : Op) : St :=
  match op with
  | .register salt rnd l p t =>
      match Auth.RegisterUser st salt rnd l p t with
      | .ok st' => st' | .error _ => st
  | .authorize now ttl l p =>
      match Auth.AuthorizeUser st now ttl l p with
      | .ok (_, st') => st' | .error _ => st
  | .changePassword salt uid p =>
      match Auth.ChangePassword st salt uid p with
      | .ok st' => st' | .error _ => st
  | .makeAdmin uid =>
      match Auth.MakeAdmin st uid with
      | .ok st' => st' | .error _ => st
  | .deleteToken uid =>
      match Auth.DeleteJWT st uid with
      | .ok st' => st' | .error _ => st

/-- A sequence of core operations applied in order. -/
def run (st : St) (ops : List Op) : St :=
  ops.foldl step st

/-! Helper lemmas about the user directory. -/

/-- A by-id lookup that succeeds is unaffected by appending a record. -/
lemma findByID_append_left (users : List User) (v : User) (uid : Int)
    (u : User) (h : UserDAO.findByID users uid = some u) :
    UserDAO.findByID (users ++ [v]) uid = some u := by
  unfold UserDAO.findByID at h ⊢
  rw [List.find?_append, h]
  rfl

/-- An admin flag that reads `true` still reads `true` after a record is
appended to the collection. -/
lemma isAdmin_append (users : List User) (v : User) (uid : Int)
    (h : UserDAO.IsAdmin users uid = .ok true) :
    UserDAO.IsAdmin (users ++ [v]) uid = .ok true := by
  unfold UserDAO.IsAdmin at h ⊢
  cases hf : UserDAO.findByID users uid with
  | none => rw [hf] at h; exact absurd h (by simp)
  | some u =>
      rw [hf] at h
      rw [findByID_append_left users v uid u hf]
      exact h

/-- Replacing the document found for `tid` by one with the same id and a
not-smaller admin flag preserves a `true` admin read for any `uid`. -/
lemma isAdmin_replace (users : List User) (tid uid : Int) (w newU : User)
    (hfind : UserDAO.findByID users tid = some w)
    (hid : newU.id = w.id)
    (hadm : w.isAdmin = true → newU.isAdmin = true)
    (h : UserDAO.IsAdmin users uid = .ok true) :
    UserDAO.IsAdmin (UserDAO.replaceByID users tid newU) uid = .ok true := by
  induction users with
  | nil => exact absurd hfind (by simp [UserDAO.findByID])
  | cons u rest ih =>
      by_cases h1 : (u.id == tid) = true
      · have hw : u = w := by
          simp only [UserDAO.findByID, List.find?_cons, h1] at hfind
          exact Option.some.inj hfind
        subst hw
        simp only [UserDAO.replaceByID, if_pos h1]
        by_cases h2 : (u.id == uid) = true
        · have hadm2 : u.isAdmin = true := by
            simp only [UserDAO.IsAdmin, UserDAO.findByID, List.find?_cons,
              h2] at h
            simpa using h
          have h2' : (newU.id == uid) = true := by rw [hid]; exact h2
          simp only [UserDAO.IsAdmin, UserDAO.findByID, List.find?_cons, h2',
            hadm hadm2]
        · rw [Bool.not_eq_true] at h2
          have h2' : (newU.id == uid) = false := by rw [hid]; exact h2
          simp only [UserDAO.IsAdmin, UserDAO.findByID, List.find?_cons,
            h2] at h
          simp only [UserDAO.IsAdmin, UserDAO.findByID, List.find?_cons, h2']
          exact h
      · rw [Bool.not_eq_true] at h1
        simp only [UserDAO.replaceByID, h1, Bool.false_eq_true, if_false]
        have hfind' : UserDAO.findByID rest tid = some w := by
          simpa only [UserDAO.findByID, List.find?_cons, h1] using hfind
        by_cases h2 : (u.id == uid) = true
        · simp only [UserDAO.IsAdmin, UserDAO.findByID, List.find?_cons,
            h2] at h ⊢
          exact h
        · rw [Bool.not_eq_true] at h2
          simp only [UserDAO.IsAdmin, UserDAO.findByID, List.find?_cons,
            h2] at h ⊢
          exact ih hfind' h

/-- Any single core operation preserves a `true` admin flag: `MakeAdmin`
writes `true`, `ChangePassword` rewrites only the password hash,
registration appends, the token operations leave the directory alone. -/
lemma step_preserves_admin (st : St) (op : Op) (uid : Int)
    (h : UserDAO.IsAdmin st.users uid = .ok true) :
    UserDAO.IsAdmin (step st op).users uid = .ok true := by
  cases op with
  | register salt rnd l p t =>
      simp only [step]
      cases hr : Auth.RegisterUser st salt rnd l p t with
      | error e => exact h
      | ok st' =>
          simp only [Auth.RegisterUser, UserDAO.SaveUser] at hr
          split at hr
          · exact absurd hr (by simp)
          · exact absurd hr (by simp)
          · rename_i users' heq
            rw [Except.ok.injEq] at hr
            subst hr
            split at heq
            · exact absurd heq (by simp)
            · rw [Except.ok.injEq] at heq
              subst heq
              exact isAdmin_append _ _ _ h
  | authorize now ttl l p =>
      simp only [step]
      cases hr : Auth.AuthorizeUser st now ttl l p with
      | error e => exact h
      | ok pair =>
          obtain ⟨tok, st'⟩ := pair
          simp only [Auth.AuthorizeUser] at hr
          split at hr
          · exact absurd hr (by simp)
          · exact absurd hr (by simp)
          · split at hr
            · split at hr
              · exact absurd hr (by simp)
              · rw [Except.ok.injEq, Prod.mk.injEq] at hr
                rw [← hr.2]
                exact h
            · exact absurd hr (by simp)
  | changePassword salt tid p =>
      simp only [step]
      cases hr : Auth.ChangePassword st salt tid p with
      | error e => exact h
      | ok st' =>
          simp only [Auth.ChangePassword] at hr
          cases hcp : UserDAO.ChangePassword st.users tid
              (bcryptGenerateFromPassword salt p) with
          | error e' => rw [hcp] at hr; cases e' <;> exact absurd hr (by simp)
          | ok users' =>
              rw [hcp] at hr
              rw [Except.ok.injEq] at hr
              subst hr
              unfold UserDAO.ChangePassword at hcp
              split at hcp
              · exact absurd hcp (by simp)
              · rename_i w hw
                rw [Except.ok.injEq] at hcp
                subst hcp
                exact isAdmin_replace _ _ _ _ _ hw rfl (fun hh => hh) h
  | makeAdmin tid =>
      simp only [step]
      cases hr : Auth.MakeAdmin st tid with
      | error e => exact h
      | ok st' =>
          simp only [Auth.MakeAdmin] at hr
          cases hcp : UserDAO.MakeAdmin st.users tid with
          | error e' => rw [hcp] at hr; cases e' <;> exact absurd hr (by simp)
          | ok users' =>
              rw [hcp] at hr
              rw [Except.ok.injEq] at hr
              subst hr
              unfold UserDAO.MakeAdmin at hcp
              split at hcp
              · exact absurd hcp (by simp)
              · rename_i w hw
                rw [Except.ok.injEq] at hcp
                subst hcp
                exact isAdmin_replace _ _ _ _ _ hw rfl (fun _ => rfl) h
  | deleteToken tid => exact h

/-! The claims. -/

/-- C1: for every login `L` and password `P`, `AuthorizeUser L P` returns
the `InvalidCredentials` error both when no user with login `L` exists and
when `P` does not match the stored password hash of the user with login
`L`; the same error value `.error .invalidCredentials` is returned in both
cases, so the caller cannot distinguish them. -/
theorem C1_authorize_indistinguishable (st : St) (now ttl : Nat)
    (L P : String) :
    ((∀ u ∈ st.users, u.login ≠ L) →
      Auth.AuthorizeUser st now ttl L P = .error .invalidCredentials) ∧
    (∀ u, UserDAO.UserByLogin st.users L = .ok u →
      bcryptCompareHashAndPassword u.passHash P = false →
      Auth.AuthorizeUser st now ttl L P = .error .invalidCredentials) := by
  constructor
  · intro h
    have hfind : st.users.find? (fun u => u.login == L) = none := by
      rw [List.find?_eq_none]
      intro u hu
      simpa using h u hu
    simp [Auth.AuthorizeUser, UserDAO.UserByLogin, hfind]
  · intro u hu hcmp
    unfold UserDAO.UserByLogin at hu
    split at hu
    · exact absurd hu (by simp)
    · rename_i v hv
      cases hu
      simp [Auth.AuthorizeUser, UserDAO.UserByLogin, hv, hcmp]

/-- Witness for C1: an unknown login and a wrong password both produce the
`InvalidCredentials` error. -/
theorem C1_witness :
    Auth.AuthorizeUser ⟨[], []⟩ 0 5 "a" "x" = .error .invalidCredentials ∧
    Auth.AuthorizeUser ⟨[⟨1, "a", ⟨0, "y"⟩, false, "t"⟩], []⟩ 0 5 "a" "x" =
      .error .invalidCredentials :=
  ⟨(C1_authorize_indistinguishable ⟨[], []⟩ 0 5 "a" "x").1 (by decide),
   (C1_authorize_indistinguishable ⟨[⟨1, "a", ⟨0, "y"⟩, false, "t"⟩], []⟩
      0 5 "a" "x").2 ⟨1, "a", ⟨0, "y"⟩, false, "t"⟩ (by decide) (by decide)⟩

/-- C2: `SaveJWT` inserts the token entry only when no entry currently
exists for the user id; when a live entry is present it fails with
`TokenExists` and leaves the cache untouched, so the prior token and its
expiry remain the live entry. -/
theorem C2_savejwt_conditional_insert (ts : List TokenEntry) (now : Nat)
    (tok : Token) (uid : Int) (ttl : Nat) :
    (TokenStorage.getLive ts now uid = none →
      TokenStorage.SaveJWT ts now tok uid ttl =
        .ok (ts.filter (fun e => e.userID != uid) ++
          [⟨uid, tok, now + ttl⟩])) ∧
    (∀ e, TokenStorage.getLive ts now uid = some e →
      TokenStorage.SaveJWT ts now tok uid ttl = .error .tokenExists ∧
      TokenStorage.getLive (TokenStorage.SaveJWT_state ts now tok uid ttl)
        now uid = some e) := by
  constructor
  · intro h
    simp [TokenStorage.SaveJWT, h]
  · intro e h
    refine ⟨by simp [TokenStorage.SaveJWT, h], ?_⟩
    simp [TokenStorage.SaveJWT_state, TokenStorage.SaveJWT, h]

/-- Witness for C2: inserting into an empty cache succeeds; a second insert
for the same user fails with `TokenExists` and the first entry survives. -/
theorem C2_witness :
    TokenStorage.SaveJWT [] 0 ⟨1, "a", 5⟩ 1 5 =
      .ok [⟨1, ⟨1, "a", 5⟩, 5⟩] ∧
    (TokenStorage.SaveJWT [⟨1, ⟨1, "a", 5⟩, 5⟩] 0 ⟨1, "b", 7⟩ 1 7 =
        .error .tokenExists ∧
      TokenStorage.getLive
        (TokenStorage.SaveJWT_state [⟨1, ⟨1, "a", 5⟩, 5⟩] 0 ⟨1, "b", 7⟩ 1 7)
        0 1 = some ⟨1, ⟨1, "a", 5⟩, 5⟩) :=
  ⟨(C2_savejwt_conditional_insert [] 0 ⟨1, "a", 5⟩ 1 5).1 (by decide),
   (C2_savejwt_conditional_insert [⟨1, ⟨1, "a", 5⟩, 5⟩] 0 ⟨1, "b", 7⟩ 1 7).2
     ⟨1, ⟨1, "a", 5⟩, 5⟩ (by decide)⟩

/-- C3: for an RPC whose caller lookup succeeded (and whose admin lookup,
when consulted, succeeds), the interceptor's decision is exactly the
claimed classification: no active session → public methods admitted, all
others `Unauthenticated`; active session → public methods
`PermissionDenied`, `ChangePassword` admitted regardless of role, any
other method admitted exactly when the session user is an admin, the rest
`PermissionDenied`. -/
theorem C3_classification (h : Handles) (cid method : String)
    (rest : List String) (users : List User)
    (hl : h.getUserByTelegram cid = .ok users)
    (hAdm : ∃ b, h.isAdmin (findSesion h.getJWT users) = .ok b) :
    UnaryInterceptor h (some (cid :: rest)) method =
      claimedClassification h users method := by
  obtain ⟨b, hb⟩ := hAdm
  cases b
  all_goals simp only [UnaryInterceptor, claimedClassification, hl, hb]
  all_goals split_ifs <;> simp_all

/-- Witness for C3: a caller with no user records and no session, on a
non-public method. -/
theorem C3_witness :
    UnaryInterceptor
      ⟨fun _ => .ok [], fun _ => .ok false, fun _ => .error .tokenNotFound⟩
      (some ["t"]) "/Auth/IsAdmin" =
    claimedClassification
      ⟨fun _ => .ok [], fun _ => .ok false, fun _ => .error .tokenNotFound⟩
      [] "/Auth/IsAdmin" :=
  C3_classification
    ⟨fun _ => .ok [], fun _ => .ok false, fun _ => .error .tokenNotFound⟩
    "t" "/Auth/IsAdmin" [] [] rfl ⟨false, rfl⟩

/-- C4: when the caller lookup fails, the interceptor invokes the handler
exactly when the failure is `UserNotFound` and the method is
`RegisterNewUser`; every other lookup failure, and a `UserNotFound`
failure on any other method, is rejected with `Unauthenticated`. -/
theorem C4_lookup_failure (h : Handles) (cid method : String)
    (rest : List String) (e : StorageErr)
    (hl : h.getUserByTelegram cid = .error e) :
    UnaryInterceptor h (some (cid :: rest)) method =
      (if e = .userNotFound ∧ method = "/Auth/RegisterNewUser"
       then .handled else .reject .unauthenticated) := by
  simp [UnaryInterceptor, hl]

/-- Witness for C4: a `UserNotFound` lookup failure on the registration
method admits the call. -/
theorem C4_witness :
    UnaryInterceptor
      ⟨fun _ => .error .userNotFound, fun _ => .ok false,
        fun _ => .error .tokenNotFound⟩
      (some ["t"]) "/Auth/RegisterNewUser" = .handled :=
  (C4_lookup_failure
    ⟨fun _ => .error .userNotFound, fun _ => .ok false,
      fun _ => .error .tokenNotFound⟩
    "t" "/Auth/RegisterNewUser" [] .userNotFound rfl).trans (by decide)

/-- C5: when `RegisterUser L P C` succeeds and the created user (whose
assigned id is the widened 32-bit value `rnd % 2^32`) has no live token, a
subsequent `AuthorizeUser L P` succeeds and returns a token whose `uid`
claim is the created user's id and whose `login` claim is `L`. -/
theorem C5_register_then_authorize (st : St) (salt rnd now ttl : Nat)
    (L P C : String) (st' : St)
    (hr : Auth.RegisterUser st salt rnd L P C = .ok st')
    (ht : TokenStorage.getLive st'.tokens now
      ((rnd % 2 ^ 32 : Nat) : Int) = none) :
    ∃ tok st'', Auth.AuthorizeUser st' now ttl L P = .ok (tok, st'') ∧
      tok.uid = ((rnd % 2 ^ 32 : Nat) : Int) ∧ tok.login = L := by
  simp only [Auth.RegisterUser, UserDAO.SaveUser] at hr
  split at hr
  · exact absurd hr (by simp)
  · exact absurd hr (by simp)
  · rename_i users' heq
    rw [Except.ok.injEq] at hr
    subst hr
    split at heq
    · exact absurd heq (by simp)
    · rename_i hdk
      rw [Except.ok.injEq] at heq
      subst heq
      rw [Bool.not_eq_true, UserDAO.duplicateKey] at hdk
      have hnoL : ∀ v ∈ st.users, ¬(v.login == L) = true := by
        intro v hv
        have hvv := List.any_eq_false.mp hdk v hv
        simp only [Bool.or_eq_true, not_or] at hvv
        simpa using hvv.1.2
      have hfind : (st.users ++
          [(⟨((rnd % 2 ^ 32 : Nat) : Int), L,
            bcryptGenerateFromPassword salt P, false, C⟩ : User)]).find?
            (fun v => v.login == L) =
          some ⟨((rnd % 2 ^ 32 : Nat) : Int), L,
            bcryptGenerateFromPassword salt P, false, C⟩ := by
        rw [List.find?_append, List.find?_eq_none.mpr hnoL]
        simp
      have ht' : TokenStorage.getLive st.tokens now
          ((rnd % 2 ^ 32 : Nat) : Int) = none := ht
      have hres : Auth.AuthorizeUser
          ({ users := st.users ++ [⟨((rnd % 2 ^ 32 : Nat) : Int), L,
              bcryptGenerateFromPassword salt P, false, C⟩],
             tokens := st.tokens } : St) now ttl L P =
          .ok (⟨((rnd % 2 ^ 32 : Nat) : Int), L, now + ttl⟩,
            { users := st.users ++ [⟨((rnd % 2 ^ 32 : Nat) : Int), L,
                bcryptGenerateFromPassword salt P, false, C⟩],
              tokens := st.tokens.filter
                  (fun e => e.userID != ((rnd % 2 ^ 32 : Nat) : Int)) ++
                [⟨((rnd % 2 ^ 32 : Nat) : Int),
                  ⟨((rnd % 2 ^ 32 : Nat) : Int), L, now + ttl⟩,
                  now + ttl⟩] }) := by
        simp only [Auth.AuthorizeUser, UserDAO.UserByLogin]
        rw [hfind]
        simp only [bcryptCompareHashAndPassword, bcryptGenerateFromPassword,
          beq_self_eq_true, if_true, NewToken, TokenStorage.SaveJWT, ht']
      exact ⟨_, _, hres, rfl, rfl⟩

/-- Witness for C5: registering on an empty store and then authorizing
with the same credentials yields a token with the created id and login. -/
theorem C5_witness :
    ∃ tok st'',
      Auth.AuthorizeUser ⟨[⟨((0 % 2 ^ 32 : Nat) : Int), "a", ⟨3, "x"⟩,
        false, "t"⟩], []⟩ 0 5 "a" "x" = .ok (tok, st'') ∧
      tok.uid = ((0 % 2 ^ 32 : Nat) : Int) ∧ tok.login = "a" :=
  C5_register_then_authorize ⟨[], []⟩ 3 0 0 5 "a" "x" "t"
    ⟨[⟨((0 % 2 ^ 32 : Nat) : Int), "a", ⟨3, "x"⟩, false, "t"⟩], []⟩
    (by decide) (by decide)

/-- C6 counterexample: a `RegisterNewUser` request with non-empty login
and password but an empty caller identifier passes validation and is not
rejected with `InvalidArgument` — the facade invokes the auth service. -/
theorem C6_counterexample :
    validateRegister ⟨"a", "x", ""⟩ = none ∧
    ServerAPI.RegisterNewUser ⟨"a", "x", ""⟩ (.ok ()) = .ok () := by
  decide

/-- C6 (amended): the facade rejects with `InvalidArgument`, before
invoking the auth service (for every auth outcome `r`), whenever `login`
or `password` is empty; the `caller_identifier` field is never validated,
so a request with non-empty login and password proceeds to the auth
service regardless of its caller identifier. -/
theorem C6_validation (req : RegisterRequest) (r : Except AuthErr Unit) :
    ((req.login = "" ∨ req.password = "") →
      ServerAPI.RegisterNewUser req r = .err .invalidArgument) ∧
    (req.login ≠ "" → req.password ≠ "" →
      ServerAPI.RegisterNewUser req r =
        (match r with
          | .ok _ => .ok ()
          | .error _ => .err .internal)) := by
  constructor
  · intro h
    rcases h with h | h <;>
      simp [ServerAPI.RegisterNewUser, validateRegister, h]
  · intro h1 h2
    simp only [ServerAPI.RegisterNewUser, validateRegister, if_neg h1,
      if_neg h2]
    cases r <;> rfl

/-- Witness for C6 (amended): an empty login is rejected with
`InvalidArgument`; an empty caller identifier is not. -/
theorem C6_witness :
    ServerAPI.RegisterNewUser ⟨"", "x", "t"⟩ (.ok ()) =
      .err .invalidArgument ∧
    ServerAPI.RegisterNewUser ⟨"a", "x", ""⟩ (.ok ()) = .ok () :=
  ⟨(C6_validation ⟨"", "x", "t"⟩ (.ok ())).1 (Or.inl rfl),
   (C6_validation ⟨"a", "x", ""⟩ (.ok ())).2 (by decide) (by decide)⟩

/-- C7: for every `AuthorizeUser` request that passes field validation,
every auth-service failure — `InvalidCredentials` and the passed-through
`TokenExists` included — is returned by the facade as the `Internal`
status; no domain error surfaces with its own code. -/
theorem C7_authorize_internal (req : AuthorizeRequest) (e : AuthErr)
    (h1 : req.login ≠ "") (h2 : req.password ≠ "") :
    ServerAPI.AuthorizeUser req (.error e) = .err .internal := by
  simp [ServerAPI.AuthorizeUser, validateAuth, h1, h2]

/-- Witness for C7: `InvalidCredentials` and `TokenExists` both surface as
`Internal`. -/
theorem C7_witness :
    ServerAPI.AuthorizeUser ⟨"a", "x"⟩ (.error .invalidCredentials) =
      .err .internal ∧
    ServerAPI.AuthorizeUser ⟨"a", "x"⟩
      (.error (.storage .tokenExists)) = .err .internal :=
  ⟨C7_authorize_internal ⟨"a", "x"⟩ .invalidCredentials (by decide)
     (by decide),
   C7_authorize_internal ⟨"a", "x"⟩ (.storage .tokenExists) (by decide)
     (by decide)⟩

/-- C8: the stored `is_admin` flag only ever transitions false→true — once
`UD.IsAdmin id` reads `true`, it still reads `true` after any sequence of
core operations (`MakeAdmin` writes `true`, `ChangePassword` rewrites only
the password hash, no operation writes `false`). -/
theorem C8_isadmin_monotone (st : St) (ops : List Op) (uid : Int)
    (h : UserDAO.IsAdmin st.users uid = .ok true) :
    UserDAO.IsAdmin (run st ops).users uid = .ok true := by
  induction ops generalizing st with
  | nil => exact h
  | cons op rest ih => exact ih (step st op) (step_preserves_admin st op uid h)

/-- Witness for C8: an admin stays admin across a password change, an
authorization and a registration. -/
theorem C8_witness :
    UserDAO.IsAdmin
      (run ⟨[⟨5, "a", ⟨0, "x"⟩, true, "t"⟩], []⟩
        [.changePassword 1 5 "y", .authorize 0 9 "a" "y",
         .register 2 6 "b" "z" "u"]).users 5 = .ok true :=
  C8_isadmin_monotone ⟨[⟨5, "a", ⟨0, "x"⟩, true, "t"⟩], []⟩
    [.changePassword 1 5 "y", .authorize 0 9 "a" "y",
     .register 2 6 "b" "z" "u"] 5 (by decide)

/-- C9: `SaveUser` discards any caller-supplied id (the result is the same
for every input id), and on success appends the record with the assigned
id `rnd % 2^32` widened to a signed 64-bit integer — a value in
`[0, 2^32)`; consequently the middleware's no-session sentinel `-1` is
never a stored user's id (it is preserved as a non-id by every insert). -/
theorem C9_assigned_id_bounds (users : List User) (rnd : Nat) (u : User) :
    (∀ x : Int, UserDAO.SaveUser users rnd u =
      UserDAO.SaveUser users rnd { u with id := x }) ∧
    (∀ users', UserDAO.SaveUser users rnd u = .ok users' →
      users' = users ++ [{ u with id := ((rnd % 2 ^ 32 : Nat) : Int) }] ∧
      0 ≤ ((rnd % 2 ^ 32 : Nat) : Int) ∧
      ((rnd % 2 ^ 32 : Nat) : Int) < 2 ^ 32 ∧
      ((∀ v ∈ users, v.id ≠ -1) → ∀ v ∈ users', v.id ≠ -1)) := by
  constructor
  · intro x
    rfl
  · intro users' hok
    simp only [UserDAO.SaveUser] at hok
    split at hok
    · exact absurd hok (by simp)
    · rw [Except.ok.injEq] at hok
      subst hok
      refine ⟨rfl, by omega, by omega, ?_⟩
      intro hall v hv
      rcases List.mem_append.mp hv with h1 | h2
      · exact hall v h1
      · simp only [List.mem_singleton] at h2
        subst h2
        show ((rnd % 2 ^ 32 : Nat) : Int) ≠ -1
        omega

/-- Witness for C9: a save into an empty directory assigns id `7 % 2^32`
whatever id the caller supplied, and `-1` is not among the stored ids. -/
theorem C9_witness :
    UserDAO.SaveUser [] 7 ⟨-1, "a", ⟨0, "x"⟩, false, "t"⟩ =
      UserDAO.SaveUser [] 7 ⟨99, "a", ⟨0, "x"⟩, false, "t"⟩ ∧
    (∀ v ∈ [(⟨((7 % 2 ^ 32 : Nat) : Int), "a", ⟨0, "x"⟩, false,
        "t"⟩ : User)], v.id ≠ -1) :=
  ⟨((C9_assigned_id_bounds [] 7 ⟨-1, "a", ⟨0, "x"⟩, false, "t"⟩).1 99).trans
     (by decide),
   ((C9_assigned_id_bounds [] 7 ⟨-1, "a", ⟨0, "x"⟩, false, "t"⟩).2
      [⟨((7 % 2 ^ 32 : Nat) : Int), "a", ⟨0, "x"⟩, false, "t"⟩]
      (by decide)).2.2.2 (by decide)⟩

/-- C10: `GetAllUsers` returns one view per stored record whose
`telegramLogin` (caller identifier) field is the empty string regardless of
the stored value, while `userId`, `login`, the rendered password hash and
`isAdmin` are copied from the record; `GetUserByTelegram` copies the stored
`telegramLogin` into the view. -/
theorem C10_views (st : St) (tl : String) :
    Auth.GetAllUsers st = .ok (st.users.map (fun u =>
      ⟨u.id, u.login, u.passHash.render, u.isAdmin, ""⟩)) ∧
    Auth.GetUserByTelegram st tl = .ok
      ((st.users.filter (fun u => u.telegramLogin == tl)).map (fun u =>
        ⟨u.id, u.login, u.passHash.render, u.isAdmin, u.telegramLogin⟩)) := by
  constructor <;> rfl
